import Mathlib

/-!
Verification development for the `sanipro-cli` repository.

The Python sources under `src/saniprocli` and `src/saniproclidemo` are
shallowly embedded below: pure string manipulation becomes Lean functions on
`String`/`List Char`, the stateful session loops become explicit state-passing
functions over finite event streams (a real terminated stdin yields `EOFError`
on every read, so a finite event list followed by implicit end-of-input is a
faithful model of the input source), and fallible code returns `Except`/`Option`.
-/

namespace Sanipro

/-! ## Python string primitives

`str.strip()` removes leading/trailing whitespace characters.  For the ASCII
range Python treats `' '`, `'\t'`, `'\n'`, `'\r'`, `'\x0b'`, `'\x0c'` as
whitespace. -/

def isPyWhitespace (c : Char) : Bool :=
  c = ' ' || c = '\t' || c = '\n' || c = '\r' || c = '\x0b' || c = '\x0c'

def pyStrip (s : String) : String :=
  String.mk (((s.data.dropWhile isPyWhitespace).reverse.dropWhile isPyWhitespace).reverse)

/-- Locate the first occurrence of `sep` in `l`: returns the part before the
occurrence and the part after it (non-overlapping, leftmost-first, exactly the
search order of Python `str.split`). -/
def splitOnce (sep : List Char) : List Char → Option (List Char × List Char)
  | [] => none
  | c :: rest =>
    if sep.isPrefixOf (c :: rest) then some ([], (c :: rest).drop sep.length)
    else
      match splitOnce sep rest with
      | none => none
      | some (pre, post) => some (c :: pre, post)

/-- Iterated `splitOnce`; the `fuel` argument only makes the recursion
structural and is always supplied large enough (`length + 1`) to never run
out for a non-empty separator. -/
def pySplitAux (sep : List Char) : Nat → List Char → List (List Char)
  | 0, l => [l]
  | fuel + 1, l =>
    match splitOnce sep l with
    | none => [l]
    | some (pre, post) => pre :: pySplitAux sep fuel post

/-- Python `s.split(sep)` for a non-empty separator.  (Python raises
`ValueError` on an empty separator; the callers below guard that case
explicitly before calling this.) -/
def pySplit (s sep : String) : List String :=
  (pySplitAux sep.data (s.data.length + 1) s.data).map fun cs => String.mk cs

/-- Lookup in a Python `dict` built by a comprehension in insertion order:
a later binding of the same key overwrites an earlier one, so `get` returns
the value of the *last* entry for the key, or the default. -/
def pyDictGet (kv : List (String × String)) (key dflt : String) : String :=
  match kv.reverse.find? (fun p => p.1 == key) with
  | some p => p.2
  | none => dflt

/-! ## `saniprocli/textutils.py` — `CSVUtilsBase`, specialized by
`saniproclidemo/tfind.py` — `CsvUtils`. -/

namespace CsvUtils

/-- `CsvUtils.replace_underscore`: `line.strip()` then
`line.replace("_", " ")`.  The pattern is the single character `'_'`, so
Python's `str.replace` is exactly a character-wise map. -/
def replace_underscore (line : String) : String :=
  String.mk ((pyStrip line).data.map fun c => if c = '_' then ' ' else c)

/-- `CsvUtils._do_preprocess`: `column[0] = self.replace_underscore(column[0])`.
The input always comes from `str.split`, which never returns an empty list,
so the `[]` branch is unreachable. -/
def do_preprocess (column : List String) : List String :=
  match column with
  | [] => []
  | c :: rest => replace_underscore c :: rest

/-- `CSVUtilsBase.preprocess`: strip each line, split on the delimiter, apply
the per-use-case hook `_do_preprocess`. -/
def preprocess (delim : String) (lines : List String) : List (List String) :=
  lines.map fun line => do_preprocess (pySplit (pyStrip line) delim)

/-- `CSVUtilsBase.prepare_kv`: validates the 1-based field indices
(`is_ranged_or_raise`, `is_different_idx_or_raise`), then builds the dict
`{row[k]: row[v] for row in preprocess(lines)}`; an out-of-range field in any
row aborts the whole build (`IndexError`, re-raised with a message).  Python
`str.split` raises `ValueError` on an empty separator before any row is
produced, modelled by the explicit `delim = ""` branch. -/
def prepare_kv (lines : List String) (delim : String) (key_idx value_idx : Int) :
    Except String (List (String × String)) :=
  if key_idx < 1 ∨ value_idx < 1 then .error "field number must be 1 or more"
  else if key_idx = value_idx then .error "impossible to specify the same field number"
  else if delim = "" then .error "empty separator"
  else
    let k := (key_idx - 1).toNat
    let v := (value_idx - 1).toNat
    let rows := preprocess delim lines
    if rows.all (fun row => k < row.length && v < row.length) then
      .ok (rows.map fun row => (row.getD k "", row.getD v ""))
    else .error "failed to get the element of the row number"

end CsvUtils

/-! ## `saniproclidemo/tfind.py` — escaping and formatters. -/

/-- One pass of `re.sub(r"([\(\)])", r"\\\g<1>", text)`: every literal `(`
or `)` is prefixed with one backslash; all other characters are copied. -/
def escapeList : List Char → List Char
  | [] => []
  | c :: rest =>
    if c = '(' ∨ c = ')' then '\\' :: c :: escapeList rest
    else c :: escapeList rest

namespace TFindEscaper

/-- `TFindEscaper.escape_parentheses`. -/
def escape_parentheses (text : String) : String :=
  String.mk (escapeList text.data)

end TFindEscaper

namespace Formatter

/-- `Formatter.to_csv`: the plain dialect, identity. -/
def to_csv (token : String) : String := token

/-- `Formatter.to_a1111`: the parenthesis-escaped dialect. -/
def to_a1111 (token : String) : String := TFindEscaper.escape_parentheses token

end Formatter

/-! ## `saniproclidemo/tfind.py` — `TokenFinder`. -/

/-- The `sanipro.delimiter.Delimiter` record as used by `TokenFinder.execute`:
the field separator may be `None` (checked at call time). -/
structure Delimiter where
  sep_input : String
  sep_output : String
  sep_field : Option String

namespace TokenFinder

/-- The `for token in prompt.split(in_d)` loop body of `TokenFinder.execute`:
strip the token; an empty stripped token `break`s out of the loop; otherwise
look the token up (default `"NULL"`), format it, and join the two columns
with the field delimiter. -/
def findLoop (kv : List (String × String)) (fmt : String → String)
    (field_d : String) : List String → List String
  | [] => []
  | token :: rest =>
    let new_token := pyStrip token
    if new_token = "" then []
    else
      let nums := pyDictGet kv new_token "NULL"
      let token_escaped := fmt new_token
      let serialized := String.intercalate field_d [token_escaped, nums]
      serialized :: findLoop kv fmt field_d rest

/-- `TokenFinder.execute`: raises `ValueError` when the field delimiter is
`None`; Python's `prompt.split("")` raises `ValueError` (modelled by the
second branch); otherwise runs the token loop and joins the records with the
output delimiter. -/
def execute (d : Delimiter) (fmt : String → String) (prompt : String)
    (kvstore : List (String × String)) : Except String String :=
  match d.sep_field with
  | none => .error "field delimiter is None"
  | some field_d =>
    if d.sep_input = "" then .error "empty separator"
    else .ok (String.intercalate d.sep_output
      (findLoop kvstore fmt field_d (pySplit prompt d.sep_input)))

end TokenFinder

/-! ## `saniprocli/inputs.py` — input strategies.

The underlying reader (Python `input()`) is modelled as a finite list of
events: a successfully read line, or an `EOFError`.  An exhausted event list
behaves like a terminated stdin, which raises `EOFError` on every further
read. -/

/-- One outcome of the blocking `input()` call. -/
inductive ReadEv where
  | line (s : String)
  | eof
deriving DecidableEq, Repr

/-- The mutable prompt labels `self.ps1` / `self.ps2` of
`MultipleInputStrategy`. -/
structure MISState where
  ps1 : String
  ps2 : String
deriving DecidableEq, Repr

/-- `MultipleInputStrategy.__init__`: when `ps1` is non-empty and `ps2`
empty, `ps2` is made to share `ps1`'s value. -/
def MISState.mk' (ps1 ps2 : String) : MISState :=
  if ps1 ≠ "" ∧ ps2 = "" then ⟨ps1, ps1⟩ else ⟨ps1, ps2⟩

/-- The `while True` read loop of `MultipleInputStrategy.input`: every
iteration calls `input(_prompt)` (displaying `curPrompt`), appending each
line to the buffer and switching the displayed label to `ps2`; `EOFError`
with a non-empty buffer ends this logical input normally, with an empty
buffer it propagates (`none`).  Returns the raised-or-returned result, the
unconsumed reader events, and the sequence of labels displayed. -/
def misLoop (ps2 : String) (curPrompt : Option String) (buffer : List String) :
    List ReadEv → Option String × List ReadEv × List (Option String)
  | [] =>
    ((if buffer.isEmpty then none else some (String.join buffer)), [], [curPrompt])
  | .eof :: rest =>
    ((if buffer.isEmpty then none else some (String.join buffer)), rest, [curPrompt])
  | .line s :: rest =>
    let r := misLoop ps2 (some ps2) (buffer ++ [s]) rest
    (r.1, r.2.1, curPrompt :: r.2.2)

/-- `MultipleInputStrategy.input`: an explicit (non-`None`) `prompt` argument
overwrites both `self.ps1` and `self.ps2` before the read loop runs, and the
loop's first read then displays no label (`none`, Python's `input(None)`);
with no argument the stored `ps1` labels the first read.  Returns the result
(`none` models a propagated `EOFError`), the updated label state, the
unconsumed reader events, and the displayed labels. -/
def misInput (st : MISState) (prompt : Option String) (stream : List ReadEv) :
    Option String × MISState × List ReadEv × List (Option String) :=
  match prompt with
  | some p =>
    let st' : MISState := ⟨p, p⟩
    let r := misLoop st'.ps2 none [] stream
    (r.1, st', r.2.1, r.2.2)
  | none =>
    let r := misLoop st.ps2 (some st.ps1) [] stream
    (r.1, st, r.2.1, r.2.2)

/-- Modelled from the spec: `DirectInputStrategy` is referenced by
`CliCommandsDemo._get_input_strategy` in `tfind.py`, but its definition is
not among the provided source files (`inputs.py` defines only the oneline
and multiline strategies).  Per §4.1 of the spec it wraps an
already-available string: a single call to `input` returns it, a second call
fails with `EndOfInput`. -/
structure DirectInputStrategy where
  value : String
  consumed : Bool
deriving DecidableEq, Repr

/-- Modelled from the spec: the `input` operation of `DirectInputStrategy`
(`none` models a raised `EndOfInput`). -/
def DirectInputStrategy.input (d : DirectInputStrategy) :
    Option String × DirectInputStrategy :=
  if d.consumed then (none, d) else (some d.value, { d with consumed := true })

/-- Modelled from the spec: a fresh `DirectInputStrategy` wrapping `s`. -/
def DirectInputStrategy.wrap (s : String) : DirectInputStrategy :=
  ⟨s, false⟩

/-! ## `saniprocli/cli_runner.py` — `RunnerInteractiveMultiple`.

The dual-input session loop `_start_loop` is driven by successive calls to
`self._input_strategy.input()`; each call yields a line (possibly empty),
raises `EOFError`, or raises `KeyboardInterrupt`.  A session run is modelled
over a finite trace of those outcomes. -/

/-- One outcome of a blocking `self._input_strategy.input()` call inside
`RunnerInteractiveMultiple._handle_input`. -/
inductive RawEvent where
  | line (s : String)
  | eof
  | interrupt
deriving DecidableEq, Repr

/-- The explicit state of `_start_loop`: Python's `state == 00` awaits the
first prompt; `state == 10` holds the stored `first` while awaiting the
second.  (`state == 20` is transient: it immediately executes and returns to
`00`.) -/
inductive MState where
  | awaitingFirst
  | awaitingSecond (first : String)
deriving DecidableEq, Repr

/-- `RunnerInteractiveMultiple._start_loop` composed with `_handle_input`,
one consumed event per `input()` call.  `_handle_input` retries inside the
*current* machine state on an empty line or a `KeyboardInterrupt`, which
appear here as self-transitions; the `EOFError` it re-raises is the `eof`
case: fatal to the loop in `awaitingFirst` (outer `break`), a reset to
`awaitingFirst` in `awaitingSecond` (state `10`'s `except EOFError` arm).
A ready pair is executed at once (`state == 20`) and its output recorded.
Returns the outputs written and whether the loop has exited; when the finite
trace is exhausted the loop is still blocked on input, hence `false`. -/
def startLoop (f : String → String → String) :
    MState → List RawEvent → List String × Bool
  | _, [] => ([], false)
  | .awaitingFirst, .eof :: _ => ([], true)
  | .awaitingFirst, .interrupt :: rest => startLoop f .awaitingFirst rest
  | .awaitingFirst, .line s :: rest =>
    if s = "" then startLoop f .awaitingFirst rest
    else startLoop f (.awaitingSecond s) rest
  | .awaitingSecond _, .eof :: rest => startLoop f .awaitingFirst rest
  | .awaitingSecond first, .interrupt :: rest =>
    startLoop f (.awaitingSecond first) rest
  | .awaitingSecond first, .line s :: rest =>
    if s = "" then startLoop f (.awaitingSecond first) rest
    else
      let r := startLoop f .awaitingFirst rest
      (f first s :: r.1, r.2)

/-- The per-event state transition of the running session loop.  The
terminating case — `eof` in `awaitingFirst` — exits the loop instead of
transitioning; the value assigned there is never reached by a running loop
and is set to `awaitingFirst`. -/
def nextState : MState → RawEvent → MState
  | .awaitingFirst, .eof => .awaitingFirst
  | .awaitingFirst, .interrupt => .awaitingFirst
  | .awaitingFirst, .line s => if s = "" then .awaitingFirst else .awaitingSecond s
  | .awaitingSecond _, .eof => .awaitingFirst
  | .awaitingSecond first, .interrupt => .awaitingSecond first
  | .awaitingSecond first, .line s =>
    if s = "" then .awaitingSecond first else .awaitingFirst

/-! ## `saniprocli/cli_runner.py` — `RunnerNonInteractiveSingle`. -/

/-- Outcome of the single `self._input_strategy.input()` call in
`RunnerNonInteractiveSingle._run_once`. -/
inductive ReadResult where
  | ok (s : String)
  | interrupted
  | eof
deriving DecidableEq, Repr

/-- `RunnerNonInteractiveSingle._run_once`: `sentence` starts as `""`; a
successful read strips it; `KeyboardInterrupt`/`EOFError` trigger
`sys.exit(1)` — but the `finally` block still runs the execution callback on
the current `sentence` and writes the result before the `SystemExit`
propagates.  Returns the written outputs and the forced exit status
(`none` = normal return). -/
def runOnce (ex : String → String) (r : ReadResult) : List String × Option Nat :=
  match r with
  | .ok s => ([ex (pyStrip s)], none)
  | .interrupted => ([ex ""], some 1)
  | .eof => ([ex ""], some 1)

end Sanipro

namespace Sanipro

/-! ## Theorems -/

/-- Every `(` or `)` in the output of `escapeList` sits immediately after a
backslash emitted with it. -/
lemma escapeList_paren_escaped (l : List Char) :
    ∀ i, ((escapeList l)[i]? = some '(' ∨ (escapeList l)[i]? = some ')') →
      ∃ j, i = j + 1 ∧ (escapeList l)[j]? = some '\\' := by
  induction l with
  | nil => intro i h; simp [escapeList] at h
  | cons c rest ih =>
    intro i h
    by_cases hc : c = '(' ∨ c = ')'
    · rw [escapeList, if_pos hc] at h ⊢
      match i with
      | 0 => simp at h
      | 1 => exact ⟨0, rfl, by simp⟩
      | n + 2 =>
        simp only [List.getElem?_cons_succ] at h
        obtain ⟨j, hj, hget⟩ := ih n h
        exact ⟨j + 2, by omega, by simpa [List.getElem?_cons_succ] using hget⟩
    · rw [escapeList, if_neg hc] at h ⊢
      push_neg at hc
      match i with
      | 0 => simp at h; rcases h with h | h <;> simp [h] at hc
      | n + 1 =>
        simp only [List.getElem?_cons_succ] at h
        obtain ⟨j, hj, hget⟩ := ih n h
        exact ⟨j + 1, by omega, by simpa [List.getElem?_cons_succ] using hget⟩

/-- `escapeList` adds exactly one backslash per parenthesis character. -/
lemma escapeList_count_backslash (l : List Char) :
    (escapeList l).count '\\' = l.count '\\' + (l.count '(' + l.count ')') := by
  induction l with
  | nil => rfl
  | cons c rest ih =>
    by_cases hc : c = '(' ∨ c = ')'
    · rw [escapeList, if_pos hc]
      rcases hc with h | h <;> subst h <;>
        simp [List.count_cons, ih] <;> try omega
    · rw [escapeList, if_neg hc]
      push_neg at hc
      obtain ⟨h1, h2⟩ := hc
      by_cases hb : c = '\\'
      · subst hb
        simp [List.count_cons, ih]
        omega
      · simp [List.count_cons, ih, h1, h2, hb]

/-- `CsvUtils._do_preprocess` rewrites only field 0 (through
`replace_underscore`); every other field is passed through verbatim. -/
lemma do_preprocess_getD (cols : List String) (n : Nat) :
    (CsvUtils.do_preprocess cols).getD n "" =
      if n = 0 then CsvUtils.replace_underscore (cols.getD 0 "")
      else cols.getD n "" := by
  cases cols with
  | nil =>
    have h0 : CsvUtils.replace_underscore "" = "" := rfl
    cases n <;> simp [CsvUtils.do_preprocess, h0]
  | cons c rest => cases n <;> simp [CsvUtils.do_preprocess]

/-- Running the `MultipleInputStrategy` read loop on buffered lines followed
by an end-of-input: the buffer is returned joined with no separator (empty
overall buffer propagates the `EOFError`), the events after the `eof` are
left unconsumed, and the first read displays `curPrompt`, every later one the
continuation label `ps2`. -/
lemma misLoop_run (ps2 : String) :
    ∀ (lines : List String) (cur : Option String) (buf : List String)
      (rest : List ReadEv),
      misLoop ps2 cur buf (lines.map .line ++ .eof :: rest) =
        ((if (buf ++ lines).isEmpty then none else some (String.join (buf ++ lines))),
         rest, cur :: List.replicate lines.length (some ps2)) := by
  intro lines
  induction lines with
  | nil => intro cur buf rest; simp [misLoop]
  | cons s ls ih =>
    intro cur buf rest
    simp only [List.map_cons, List.cons_append, misLoop, List.append_eq]
    rw [ih (some ps2) (buf ++ [s]) rest]
    simp [List.append_assoc, List.replicate_succ]

/-- The first read of the `MultipleInputStrategy` loop always displays the
label the loop was entered with. -/
lemma misLoop_displayed_head (ps2 : String) (cur : Option String)
    (buf : List String) (stream : List ReadEv) :
    (misLoop ps2 cur buf stream).2.2.head? = some cur := by
  cases stream with
  | nil => rfl
  | cons e rest => cases e <;> simp [misLoop]

/-- **C1.** End-to-end concrete scenario: building the tag table from the rows
`["cat,10", "dog,5"]` with row delimiter `","`, `key_index = 1`,
`value_index = 2` yields the mapping `{"cat": "10", "dog": "5"}`, and
`TokenFinder.execute "cat, dog, fox"` over that table with input delimiter
`","`, field delimiter `":"`, output delimiter `" | "` and the plain (csv)
formatter returns exactly `"cat:10 | dog:5 | fox:NULL"`. -/
theorem claim_C1_concrete_scenario :
    CsvUtils.prepare_kv ["cat,10", "dog,5"] "," 1 2 = .ok [("cat", "10"), ("dog", "5")] ∧
    TokenFinder.execute ⟨",", " | ", some ":"⟩ Formatter.to_csv "cat, dog, fox"
      [("cat", "10"), ("dog", "5")] = .ok "cat:10 | dog:5 | fox:NULL" := by
  constructor <;> rfl

/-- **C3.** Early termination on empty token: for every table, formatter and
field delimiter, when the token loop of `TokenFinder.execute` meets a token
that strips to the empty string it drops all remaining tokens (not merely the
empty one); concretely, with input delimiter `","` the prompt `"a, ,b"`
produces only the record for `"a"` and no record for `"b"`. -/
theorem claim_C3_early_termination :
    (∀ (kv : List (String × String)) (fmt : String → String) (field_d : String)
        (ts1 ts2 : List String) (t : String), pyStrip t = "" →
        TokenFinder.findLoop kv fmt field_d (ts1 ++ t :: ts2) =
          TokenFinder.findLoop kv fmt field_d ts1) ∧
    TokenFinder.execute ⟨",", " | ", some ":"⟩ Formatter.to_csv "a, ,b" [] =
      .ok "a:NULL" := by
  constructor
  · intro kv fmt field_d ts1 ts2 t ht
    induction ts1 with
    | nil => simp [TokenFinder.findLoop, ht]
    | cons a rest ih =>
      simp only [List.cons_append, TokenFinder.findLoop]
      by_cases ha : pyStrip a = ""
      · simp [ha]
      · simp [ha, ih]
  · rfl

/-- Witness for C3: instantiates the early-termination law at the prompt
tokens of `"a, ,b"` split on `","`. -/
theorem claim_C3_early_termination_witness :
    pyStrip " " = "" ∧
    TokenFinder.findLoop [] Formatter.to_csv ":" (["a"] ++ " " :: ["b"]) =
      TokenFinder.findLoop [] Formatter.to_csv ":" ["a"] :=
  ⟨by decide, claim_C3_early_termination.1 [] Formatter.to_csv ":" ["a"] ["b"] " "
    (by decide)⟩

/-- **C6 (counterexample).** The claim says `TokenFinder.execute` fails
whenever the field separator is unset *or empty*; but with the empty-string
field separator (and everything else well-formed) the code succeeds, joining
the two columns with nothing in between. -/
theorem claim_C6_counterexample :
    TokenFinder.execute ⟨",", " | ", some ""⟩ Formatter.to_csv "cat" [] =
      .ok "catNULL" := by
  rfl

/-- **C6 (amended).** `TokenFinder.execute` fails with the configuration
error exactly when the field separator is unset (`None`); an empty-string
field separator is accepted.  (The input separator is assumed non-empty:
Python `str.split` rejects an empty separator on a different path.) -/
theorem claim_C6_field_separator (d : Delimiter) (fmt : String → String)
    (prompt : String) (kv : List (String × String)) (hin : d.sep_input ≠ "") :
    (∃ e, TokenFinder.execute d fmt prompt kv = .error e) ↔ d.sep_field = none := by
  cases hf : d.sep_field with
  | none => simp [TokenFinder.execute, hf]
  | some fd => simp [TokenFinder.execute, hf, hin]

/-- Witness for C6: the amended law at a concrete delimiter record with an
unset field separator. -/
theorem claim_C6_field_separator_witness :
    ("," : String) ≠ "" ∧
    ((∃ e, TokenFinder.execute ⟨",", " | ", none⟩ Formatter.to_csv "cat" [] =
        .error e) ↔ (Delimiter.mk "," " | " none).sep_field = none) :=
  ⟨by decide, claim_C6_field_separator ⟨",", " | ", none⟩ Formatter.to_csv "cat" []
    (by decide)⟩

/-- **C8.** Parenthesis escaping bound: for every token containing `(` or
`)`, the parenthesis-escaped form (`Formatter.to_a1111`, i.e.
`TFindEscaper.escape_parentheses`) has every `(`/`)` occurrence immediately
prefixed by a backslash, and the number of backslashes added equals the
number of parenthesis characters of the token (single pass,
non-overlapping). -/
theorem claim_C8_parenthesis_escaping (t : String)
    (_h : 0 < t.data.count '(' + t.data.count ')') :
    (∀ i, ((Formatter.to_a1111 t).data[i]? = some '(' ∨
        (Formatter.to_a1111 t).data[i]? = some ')') →
      ∃ j, i = j + 1 ∧ (Formatter.to_a1111 t).data[j]? = some '\\') ∧
    (Formatter.to_a1111 t).data.count '\\' =
      t.data.count '\\' + (t.data.count '(' + t.data.count ')') := by
  refine ⟨?_, ?_⟩
  · intro i hi
    exact escapeList_paren_escaped t.data i hi
  · exact escapeList_count_backslash t.data

/-- Witness for C8: the escaping bound evaluated at `"a(b)"`. -/
theorem claim_C8_parenthesis_escaping_witness :
    0 < ("a(b)".data.count '(' + "a(b)".data.count ')') ∧
    (Formatter.to_a1111 "a(b)").data.count '\\' =
      "a(b)".data.count '\\' + ("a(b)".data.count '(' + "a(b)".data.count ')') :=
  ⟨by decide, (claim_C8_parenthesis_escaping "a(b)" (by decide)).2⟩

/-- **C4.** Multi-line input strategy: for every sequence of lines followed
by end-of-input, `MultipleInputStrategy.input` concatenates the buffered
lines with no added separator and returns the concatenation as one logical
input; it propagates `EndOfInput` exactly when the buffer is empty at the
end-of-input; in particular, fed `["foo", "bar"]` then end-of-input it
returns `"foobar"` and does not raise. -/
theorem claim_C4_multiline_input :
    (∀ (st : MISState) (lines : List String) (rest : List ReadEv),
        (misInput st none (lines.map .line ++ .eof :: rest)).1 =
          if lines.isEmpty then none else some (String.join lines)) ∧
    (∀ st : MISState,
        (misInput st none [.line "foo", .line "bar", .eof]).1 = some "foobar") := by
  constructor
  · intro st lines rest
    simp [misInput, misLoop_run]
  · intro st
    show (misLoop st.ps2 (some st.ps1) []
        ((["foo", "bar"] : List String).map .line ++ .eof :: [])).1 = some "foobar"
    rw [misLoop_run]
    rfl

/-- **C9.** Calling `MultipleInputStrategy.input` with an explicit non-`None`
prompt argument overwrites both stored labels `ps1` and `ps2` with that
argument, so a later call without an argument displays the overwritten label
(not the construction-time one); a call with no argument leaves `ps1` and
`ps2` unchanged. -/
theorem claim_C9_prompt_overwrite :
    (∀ (st : MISState) (p : String) (stream : List ReadEv),
        (misInput st (some p) stream).2.1 = ⟨p, p⟩) ∧
    (∀ (st : MISState) (stream : List ReadEv),
        (misInput st none stream).2.1 = st) ∧
    (∀ (st : MISState) (p : String) (stream stream' : List ReadEv),
        ((misInput ((misInput st (some p) stream).2.1) none stream').2.2.2).head? =
          some (some p)) := by
  refine ⟨fun st p stream => rfl, fun st stream => rfl, fun st p stream stream' => ?_⟩
  simp [misInput, misLoop_displayed_head]

/-- **C7.** `DirectInputStrategy` wraps an already-available string: the
first call to `input` returns that string, and a second call fails with
`EndOfInput`. -/
theorem claim_C7_direct_input (s : String) :
    (DirectInputStrategy.wrap s).input = (some s, ⟨s, true⟩) ∧
    ((DirectInputStrategy.wrap s).input.2).input = (none, ⟨s, true⟩) := by
  constructor <;> rfl

/-- **C5.** Non-interactive session: the execution callback runs exactly once
whatever the outcome of the read; an interrupted (or end-of-input) read
substitutes the empty string, still attempts the one execute/write, and
forces a non-zero exit status. -/
theorem claim_C5_noninteractive_always_executes (ex : String → String)
    (r : ReadResult) :
    (runOnce ex r).1 =
      [ex (match r with | .ok s => pyStrip s | .interrupted => "" | .eof => "")] ∧
    (runOnce ex r).1.length = 1 ∧
    ((runOnce ex r).2 = some 1 ↔ (r = .interrupted ∨ r = .eof)) := by
  cases r <;> simp [runOnce]

/-- Witness for C5: the non-interactive run at an interrupted read with the
identity callback. -/
theorem claim_C5_noninteractive_witness :
    (runOnce (fun s => s) .interrupted).1 = [""] ∧
    (runOnce (fun s => s) .interrupted).2 = some 1 := by
  have h := claim_C5_noninteractive_always_executes (fun s => s) .interrupted
  exact ⟨by simpa using h.1, by simpa using h.2.2⟩

/-- A terminated dual-input session run decomposes: the trace splits into a
consumed prefix that drives the machine (via `nextState`) into
`awaitingFirst`, followed by an end-of-input event — i.e. the loop exits
only on `eof` received in `awaitingFirst`. -/
lemma startLoop_term_decomp (f : String → String → String) :
    ∀ (evs : List RawEvent) (st : MState),
      (startLoop f st evs).2 = true →
      ∃ pre post, evs = pre ++ .eof :: post ∧
        List.foldl nextState st pre = .awaitingFirst := by
  intro evs
  induction evs with
  | nil => intro st h; cases st <;> simp [startLoop] at h
  | cons e rest ih =>
    intro st h
    cases st with
    | awaitingFirst =>
      cases e with
      | eof => exact ⟨[], rest, rfl, rfl⟩
      | interrupt =>
        obtain ⟨pre, post, hsplit, hstate⟩ := ih _ (by simpa [startLoop] using h)
        exact ⟨.interrupt :: pre, post, by simp [hsplit],
          by simpa [nextState] using hstate⟩
      | line s =>
        by_cases hs : s = ""
        · obtain ⟨pre, post, hsplit, hstate⟩ :=
            ih .awaitingFirst (by simpa [startLoop, hs] using h)
          exact ⟨.line s :: pre, post, by simp [hsplit],
            by simpa [nextState, hs] using hstate⟩
        · obtain ⟨pre, post, hsplit, hstate⟩ :=
            ih (.awaitingSecond s) (by simpa [startLoop, hs] using h)
          exact ⟨.line s :: pre, post, by simp [hsplit],
            by simpa [nextState, hs] using hstate⟩
    | awaitingSecond first =>
      cases e with
      | eof =>
        obtain ⟨pre, post, hsplit, hstate⟩ :=
          ih .awaitingFirst (by simpa [startLoop] using h)
        exact ⟨.eof :: pre, post, by simp [hsplit],
          by simpa [nextState] using hstate⟩
      | interrupt =>
        obtain ⟨pre, post, hsplit, hstate⟩ := ih _ (by simpa [startLoop] using h)
        exact ⟨.interrupt :: pre, post, by simp [hsplit],
          by simpa [nextState] using hstate⟩
      | line s =>
        by_cases hs : s = ""
        · obtain ⟨pre, post, hsplit, hstate⟩ :=
            ih (.awaitingSecond first) (by simpa [startLoop, hs] using h)
          exact ⟨.line s :: pre, post, by simp [hsplit],
            by simpa [nextState, hs] using hstate⟩
        · obtain ⟨pre, post, hsplit, hstate⟩ :=
            ih .awaitingFirst (by simpa [startLoop, hs] using h)
          exact ⟨.line s :: pre, post, by simp [hsplit],
            by simpa [nextState, hs] using hstate⟩

/-- Converse of `startLoop_term_decomp`: a trace whose prefix drives the
machine into `awaitingFirst` and then sees an end-of-input terminates the
loop. -/
lemma startLoop_term_of_decomp (f : String → String → String) :
    ∀ (pre : List RawEvent) (st : MState) (post : List RawEvent),
      List.foldl nextState st pre = .awaitingFirst →
      (startLoop f st (pre ++ .eof :: post)).2 = true := by
  intro pre
  induction pre with
  | nil =>
    intro st post hst
    simp only [List.foldl_nil] at hst
    subst hst
    simp [startLoop]
  | cons e pre' ih =>
    intro st post hst
    simp only [List.foldl_cons] at hst
    cases st with
    | awaitingFirst =>
      cases e with
      | eof => simp [startLoop]
      | interrupt =>
        simpa [startLoop] using ih _ post (by simpa [nextState] using hst)
      | line s =>
        by_cases hs : s = ""
        · simpa [startLoop, hs] using ih _ post (by simpa [nextState, hs] using hst)
        · simpa [startLoop, hs] using ih _ post (by simpa [nextState, hs] using hst)
    | awaitingSecond first =>
      cases e with
      | eof =>
        simpa [startLoop] using ih _ post (by simpa [nextState] using hst)
      | interrupt =>
        simpa [startLoop] using ih _ post (by simpa [nextState] using hst)
      | line s =>
        by_cases hs : s = ""
        · simpa [startLoop, hs] using ih _ post (by simpa [nextState, hs] using hst)
        · simpa [startLoop, hs] using ih _ post (by simpa [nextState, hs] using hst)

/-- **C2.** Dual-input session state machine: an end-of-input received while
awaiting the second prompt discards the stored first prompt, returns the
machine to `AWAITING_FIRST` and does not by itself terminate the loop (the
run continues exactly as a fresh `AWAITING_FIRST` run of the remaining
trace); the loop terminates precisely on an end-of-input received while in
`AWAITING_FIRST`; and after such an abandonment a subsequent complete pair
is executed normally via the execution callback. -/
theorem claim_C2_dual_input_state_machine :
    (∀ (f : String → String → String) (first : String) (evs : List RawEvent),
        startLoop f (.awaitingSecond first) (.eof :: evs) =
          startLoop f .awaitingFirst evs) ∧
    (∀ (f : String → String → String) (st : MState) (evs : List RawEvent),
        (startLoop f st evs).2 = true ↔
          ∃ pre post, evs = pre ++ .eof :: post ∧
            List.foldl nextState st pre = .awaitingFirst) ∧
    (∀ f : String → String → String,
        startLoop f .awaitingFirst
          [.line "x", .eof, .line "y", .line "z", .eof] = ([f "y" "z"], true)) := by
  refine ⟨fun f first evs => rfl, fun f st evs => ⟨fun h => ?_, fun h => ?_⟩,
    fun f => rfl⟩
  · exact startLoop_term_decomp f evs st h
  · obtain ⟨pre, post, hsplit, hstate⟩ := h
    subst hsplit
    exact startLoop_term_of_decomp f pre st post hstate

/-- Witness for C2: the termination characterization evaluated on the
abandonment trace `[first="x", eof, first="y", second="z", eof]`. -/
theorem claim_C2_dual_input_witness :
    (startLoop (fun a b => a ++ b) .awaitingFirst
        [.line "x", .eof, .line "y", .line "z", .eof]).2 = true ↔
      ∃ pre post,
        ([.line "x", .eof, .line "y", .line "z", .eof] : List RawEvent) =
          pre ++ .eof :: post ∧
        List.foldl nextState .awaitingFirst pre = .awaitingFirst :=
  (claim_C2_dual_input_state_machine.2.1 (fun a b => a ++ b) .awaitingFirst
    [.line "x", .eof, .line "y", .line "z", .eof])

/-- **C10.** During table construction the underscore-to-space replacement
(with an extra whitespace strip) is applied to the first field of each row
regardless of which 1-based indices were selected as key and value; a key or
value taken from any field other than the first is stored verbatim, and when
the key field is not field 1 the key is not underscore-normalized at all. -/
theorem claim_C10_first_field_normalization (lines : List String) (delim : String)
    (ki vi : Int) (tbl : List (String × String))
    (h : CsvUtils.prepare_kv lines delim ki vi = .ok tbl) :
    tbl = lines.map (fun line =>
      ((if ki = 1 then
          CsvUtils.replace_underscore ((pySplit (pyStrip line) delim).getD 0 "")
        else (pySplit (pyStrip line) delim).getD (ki - 1).toNat ""),
       (if vi = 1 then
          CsvUtils.replace_underscore ((pySplit (pyStrip line) delim).getD 0 "")
        else (pySplit (pyStrip line) delim).getD (vi - 1).toNat ""))) := by
  simp only [CsvUtils.prepare_kv] at h
  split_ifs at h with h1 h2 h3 h4
  rw [Except.ok.injEq] at h
  subst h
  simp only [CsvUtils.preprocess, List.map_map]
  congr 1
  funext line
  simp only [Function.comp_apply]
  rw [do_preprocess_getD, do_preprocess_getD]
  push_neg at h1
  have hk : (ki - 1).toNat = 0 ↔ ki = 1 := by omega
  have hv : (vi - 1).toNat = 0 ↔ vi = 1 := by omega
  simp only [hk, hv]

/-- Witness for C10: the characterization at the concrete build of C1's
table (key field 1 normalized, value field 2 verbatim). -/
theorem claim_C10_first_field_normalization_witness :
    CsvUtils.prepare_kv ["cat,10"] "," 1 2 = .ok [("cat", "10")] ∧
    ([("cat", "10")] : List (String × String)) = ["cat,10"].map (fun line =>
      ((if (1 : Int) = 1 then
          CsvUtils.replace_underscore ((pySplit (pyStrip line) ",").getD 0 "")
        else (pySplit (pyStrip line) ",").getD ((1 : Int) - 1).toNat ""),
       (if (2 : Int) = 1 then
          CsvUtils.replace_underscore ((pySplit (pyStrip line) ",").getD 0 "")
        else (pySplit (pyStrip line) ",").getD ((2 : Int) - 1).toNat ""))) :=
  ⟨by rfl, claim_C10_first_field_normalization ["cat,10"] "," 1 2 [("cat", "10")]
    (by rfl)⟩

end Sanipro
